import Mathlib

/-!
Verification of `egi2bids` (src/egi2bids/mff2bids.py) against its
natural-language specification.

The module is a linear conversion pipeline: resolve the source archive,
load the recording, rename channels via a fixed positional table, extract
stimulus events, and write the BIDS output tree.  We embed the pipeline
shallowly: the pure parts (channel-rename table application, event-id
synthesis, the walk for a "Contents" directory) are translated directly
from the Python; the effectful parts (archive extraction, the writes
performed by the third-party writers, temporary-directory lifetime) are
modelled as an explicit trace of effects produced by an `Except`-valued
function.  Python exceptions are values of `PyError`; the Python 3
behaviour of `raise <str>` (a `TypeError`, the string being discarded)
is modelled explicitly.
-/

set_option maxRecDepth 8192
set_option maxHeartbeats 4000000

namespace Egi2Bids

/-- Python exception values, coarsely classified by class with their message. -/
inductive PyError where
  | valueError (msg : String)
  | typeError (msg : String)
  deriving DecidableEq, Repr

/-- In Python 3, `raise x` where `x` is a plain string raises
`TypeError('exceptions must derive from BaseException')`; the string never
reaches the caller.  Used for the bare-string `raise` on line 84 of
`mff2bids.py`. -/
def strRaiseError : PyError :=
  .typeError "exceptions must derive from BaseException"

/-- `CH_NAMES_EGI` from `mff2bids.py` lines 22-56: the positional channel
lookup table.  It has 257 entries; the final entry is "Cz". -/
def CH_NAMES_EGI : List String := [
  "1", "F8", "3", "4", "F2", "6", "7", "8",
  "9", "AF8", "11", "AF4", "13", "14", "FCz", "16",
  "17", "FP2", "19", "20", "Fz", "22", "23", "FC1",
  "25", "FPz", "27", "28", "F1", "30", "31", "32",
  "33", "AF3", "35", "F3", "FP1", "38", "39", "40",
  "41", "FC3", "43", "C1", "45", "AF7", "F7", "F5",
  "FC5", "50", "51", "52", "53", "54", "55", "56",
  "57", "58", "C3", "60", "61", "FT7", "63", "C5",
  "65", "CP3", "FT9", "T9", "T7", "70", "71", "72",
  "73", "74", "75", "CP5", "77", "78", "CP1", "80",
  "81", "82", "83", "TP7", "85", "P5", "P3", "P1",
  "89", "CPz", "91", "92", "93", "TP9", "95", "P7",
  "PO7", "98", "99", "100", "Pz", "102", "103", "104",
  "105", "P9", "107", "108", "PO3", "110", "111", "112",
  "113", "114", "115", "O1", "117", "118", "POz", "120",
  "121", "122", "123", "124", "125", "Oz", "127", "128",
  "129", "130", "131", "132", "133", "134", "135", "136",
  "137", "138", "139", "PO4", "141", "P2", "CP2", "144",
  "145", "146", "147", "148", "149", "O2", "151", "152",
  "P4", "154", "155", "156", "157", "158", "159", "160",
  "PO8", "P6", "163", "CP4", "165", "166", "167", "168",
  "P10", "P8", "171", "CP6", "173", "174", "175", "176",
  "177", "178", "TP8", "180", "181", "182", "C4", "184",
  "C2", "186", "187", "188", "189", "TP10", "191", "192",
  "193", "C6", "195", "196", "197", "198", "199", "200",
  "201", "T8", "203", "204", "205", "FC4", "FC2", "208",
  "209", "T10", "FT8", "212", "FC6", "214", "215", "216",
  "217", "218", "FT10", "220", "221", "F6", "223", "F4",
  "225", "F10", "227", "228", "229", "230", "231", "232",
  "233", "234", "235", "236", "237", "238", "239", "240",
  "241", "242", "243", "244", "245", "246", "247", "248",
  "249", "250", "251", "F9", "253", "254", "255", "256",
  "Cz"]

/-- The loop of `mff2bids.py` lines 147-151:
`for i, ch in enumerate(raw.info["ch_names"]): if i > 256: break;
new_chs[ch] = CH_NAMES_EGI[i]`.
`i` is the running index (first argument); the loop stops as soon as
`i > 256`, so exactly the entries with index `0..256` are recorded.
MNE channel names are unique, so the Python dict is an association list. -/
def buildNewChsAux : Nat → List String → List (String × String)
  | _, [] => []
  | i, ch :: rest =>
    if 256 < i then []
    else (ch, CH_NAMES_EGI.getD i "") :: buildNewChsAux (i + 1) rest

/-- `new_chs` as built by `mff2bids` for a given channel-name list. -/
def buildNewChs (chNames : List String) : List (String × String) :=
  buildNewChsAux 0 chNames

/-- `raw.rename_channels(mapping)` (MNE semantics): every channel whose name
is a key of the mapping gets the mapped name; all other channels keep their
name.  Channel order is unchanged. -/
def renameChannels (mapping : List (String × String)) (chNames : List String) :
    List String :=
  chNames.map fun ch => ((mapping.lookup ch).getD ch)

/-- The channel names after the rename step of `mff2bids` (lines 147-152). -/
def renamedChNames (chNames : List String) : List String :=
  renameChannels (buildNewChs chNames) chNames

/-- Sorted insertion without duplicates, the building block of `np.unique`. -/
def insertSortedDedup (x : Int) : List Int → List Int
  | [] => [x]
  | y :: ys =>
    if x < y then x :: y :: ys
    else if x = y then y :: ys
    else y :: insertSortedDedup x ys

/-- `np.unique`: the sorted list of distinct values. -/
def npUnique (l : List Int) : List Int :=
  l.foldr insertSortedDedup []

/-- Lines 160-163 of `mff2bids.py`: given `events_data` rows
`(sample, previous value, new value)`, build the auto-generated event-id
mapping: one entry per distinct code in column 2 (the new value), with key
`"Unkown_" ++ code` (sic: the code misspells "Unknown"). -/
def buildEventId (eventsData : List (Int × Int × Int)) : List (String × Int) :=
  (npUnique (eventsData.map fun e => e.2.2)).map fun c =>
    ("Unkown_" ++ toString c, c)

/-- Observable effects of the pipeline, in program order.  Writes to the
BIDS output tree are `writeRawBids`, `updateSidecar`, `makeDatasetDescr`
and `copySource`; `extractArchive` writes only to the working directory. -/
inductive Effect where
  | tmpdirCreate
  | tmpdirRemove
  | extractArchive (file dir : String)
  | readRaw
  | writeRawBids (events : Option (List (Int × Int × Int)))
      (eventId : Option (List (String × Int)))
  | updateSidecar
  | makeDatasetDescr
  | copySource
  deriving DecidableEq, Repr

/-- Does this effect write to the BIDS output tree? -/
def isOutputWrite : Effect → Bool
  | .writeRawBids _ _ => true
  | .updateSidecar => true
  | .makeDatasetDescr => true
  | .copySource => true
  | _ => false

/-- The `for root, dirs, _ in os.walk(dir_)` loop of `_extract_folder`
(lines 79-82): the walk output is a list of `(root, subdirectory names)`
pairs in walk order; the first root whose subdirectories contain
"Contents" is returned. -/
def findContents : List (String × List String) → Option String
  | [] => none
  | (root, ds) :: rest =>
    if "Contents" ∈ ds then some root else findContents rest

/-- Modelled from the spec: `_check_value` from `egi2bids/utils/_checks.py`
is imported by `mff2bids.py` but its source is not in the repository
snapshot.  Per the spec ("Fails when the extension is unrecognized"), it
raises an exception when the checked value is not among the allowed ones,
and does nothing otherwise.  Likewise `_ensure_path` is modelled as the
identity on paths (its existence check plays no role in any claim). -/
def checkExtension (ext : String) : Except PyError Unit :=
  if ext = ".tar" ∨ ext = ".zip" ∨ ext = ".mff" then .ok ()
  else .error (.valueError "Invalid value for the parameter extension.")

/-- `_extract_folder(file, dir_)` (lines 60-87).  `fileExt` is
`file.suffix`, `filePath` the path itself, `dir` the extraction directory,
`walk` the `os.walk` view of `dir` after extraction.  Returns the effect
trace together with the result: the content root for archives, the path
itself for a bare `.mff`, or the raised exception. -/
def extractFolder (fileExt filePath dir : String)
    (walk : List (String × List String)) :
    List Effect × Except PyError String :=
  match checkExtension fileExt with
  | .error e => ([], .error e)
  | .ok _ =>
    if fileExt = ".tar" ∨ fileExt = ".zip" then
      match findContents walk with
      | some root => ([.extractArchive filePath dir], .ok root)
      | none => ([.extractArchive filePath dir], .error strRaiseError)
    else
      ([], .ok filePath)

/-- The recording returned by `mne.io.read_raw_egi` (external library):
only the fields the pipeline inspects.  `foundEvents` stands for the
output of `mne.find_events` on the stimulus channel, rows of
`(sample, previous value, new value)`. -/
structure Raw where
  chNames : List String
  foundEvents : List (Int × Int × Int)
  deriving DecidableEq, Repr

/-- Filesystem environment of one `mff2bids` call: the `os.walk` view of
the working directory after extraction, the loaded recording, and whether
`source_bids_path.exists()` holds at line 136. -/
structure Env where
  walkDirs : List (String × List String)
  raw : Raw
  sourceExists : Bool
  deriving DecidableEq, Repr

/-- The `working_dir` argument of `mff2bids`.  `none` is Python `None`
(a `tempfile.TemporaryDirectory` is created); a caller-supplied value is
either a `str` or a `pathlib.Path`. -/
inductive WorkingDirArg where
  | none
  | strPath (s : String)
  | pathObj (s : String)
  deriving DecidableEq, Repr

/-- The arguments of `mff2bids` that influence the modelled behaviour.
`mffExt` is `mff_source.suffix`, `mffPath` the source path. -/
structure Args where
  mffExt : String
  mffPath : String
  eventId : Option (List (String × Int))
  saveSource : Bool
  workingDir : WorkingDirArg
  overwrite : Bool
  deriving DecidableEq, Repr

/-- The fixed stimulus-channel identifier (line 155). -/
def stimChannel : String := "STI 014"

/-- Lines 154-167 of `mff2bids.py`: the `events_data` / `event_id` pair
that reaches `write_raw_bids`.  The stimulus-channel membership test runs
on the recording after the rename step (`raw` is mutated in place); when
the channel is absent both are `None`, even a caller-supplied `event_id`
is dropped. -/
def eventsPair (a : Args) (env : Env) :
    Option (List (Int × Int × Int)) × Option (List (String × Int)) :=
  if stimChannel ∈ renamedChNames env.raw.chNames then
    (some env.raw.foundEvents,
      some (match a.eventId with
        | some m => m
        | none => buildEventId env.raw.foundEvents))
  else (none, none)

/-- Lines 143 and 181-196: the effects of the load-and-write tail of the
pipeline, in program order (`read_raw_egi`, `write_raw_bids`,
`update_sidecar_json`, `make_dataset_description`, and `copytree` when
`save_source` is set). -/
def writeEffects (a : Args) (env : Env) : List Effect :=
  [.readRaw, .writeRawBids (eventsPair a env).1 (eventsPair a env).2,
    .updateSidecar, .makeDatasetDescr] ++
    (if a.saveSource then [.copySource] else [])

/-- The body of the `with working_dir as wd:` block of `mff2bids`
(lines 112-196), given the bound working-directory path `wd`.  Effects are
accumulated in program order; an exception aborts the rest of the body. -/
def mff2bidsBody (a : Args) (env : Env) (wd : String) :
    List Effect × Except PyError String :=
  match extractFolder a.mffExt a.mffPath wd env.walkDirs with
  | (ef, .error e) => (ef, .error e)
  | (ef, .ok _src) =>
    -- lines 128-140: source-data collision check, before any read or write
    if a.saveSource ∧ env.sourceExists ∧ a.overwrite = false then
      (ef, .error (.valueError
        "Cannot write source data. Source data already exists but overwrite is set to False."))
    else
      (ef ++ writeEffects a env, .ok "bids_root")

/-- `mff2bids` (lines 91-198).  Lines 106-111: when `working_dir` is
`None`, a `tempfile.TemporaryDirectory` is created and entered; its
`__exit__` removes the directory on every exit path, normal or raising.
A caller-supplied value is entered as a context manager directly:
a `str` has no `__enter__`, so the `with` statement raises `TypeError`
before the body runs; a `pathlib.Path` implements the context-manager
protocol returning itself (true on Python below 3.13, the versions
contemporaneous with this code; the protocol was deprecated in 3.11 and
removed in 3.13), and its `__exit__` is a no-op. -/
def mff2bids (a : Args) (env : Env) : List Effect × Except PyError String :=
  match a.workingDir with
  | .none =>
    let (ef, r) := mff2bidsBody a env "tmpdir.mff"
    (Effect.tmpdirCreate :: ef ++ [Effect.tmpdirRemove], r)
  | .strPath _ =>
    ([], .error (.typeError
      "'str' object does not support the context manager protocol"))
  | .pathObj s => mff2bidsBody a env s

/-- Concrete arguments shared by the witnesses: a bare `.mff` source,
default flags, `working_dir=None`. -/
def argsBase : Args :=
  { mffExt := ".mff", mffPath := "rec.mff", eventId := none,
    saveSource := false, workingDir := .none, overwrite := false }

/-- Concrete environment: a two-channel recording without stimulus
channel, no pre-existing source data. -/
def envA : Env :=
  { walkDirs := [], raw := { chNames := ["A", "B"], foundEvents := [] },
    sourceExists := false }

/-- Concrete environment in which the destination source path exists. -/
def envExists : Env :=
  { walkDirs := [], raw := { chNames := ["A"], foundEvents := [] },
    sourceExists := true }

/-- 258 pairwise-distinct channel names (strings of 0 to 257 repeated
characters), a concrete recording with more channels than the table. -/
def wNames : List String :=
  (List.range 258).map fun k => String.mk (List.replicate k 'a')

/-- The 256 channel labels "1" through "256", in order. -/
def names256 : List String :=
  (List.range 256).map fun n => toString (n + 1)

/-! ### Helper lemmas about the channel-rename table application -/

/-- Looking up the `j`-th channel name in the association list built from
index `i` onwards finds the table entry for index `i + j`, provided the
names are distinct and `i + j` is within the renamed range. -/
theorem lookup_buildNewChsAux_le :
    ∀ (l : List String) (i j : Nat) (x : String), l.Nodup →
      l[j]? = some x → i + j ≤ 256 →
      (buildNewChsAux i l).lookup x = some (CH_NAMES_EGI.getD (i + j) "") := by
  intro l
  induction l with
  | nil => intro i j x _ hx _; simp at hx
  | cons a t ih =>
    intro i j x hnd hx hle
    rcases List.nodup_cons.mp hnd with ⟨ha, ht⟩
    have hi : ¬ 256 < i := by omega
    rw [buildNewChsAux, if_neg hi]
    cases j with
    | zero =>
      rw [List.getElem?_cons_zero] at hx
      cases hx
      simp [List.lookup_cons]
    | succ j' =>
      rw [List.getElem?_cons_succ] at hx
      have hmem : x ∈ t := List.getElem?_mem hx
      have hne : x ≠ a := fun h => ha (h ▸ hmem)
      rw [List.lookup_cons]
      rw [show (x == a) = false from beq_eq_false_iff_ne.mpr hne]
      have := ih (i + 1) j' x ht hx (by omega)
      rw [show i + 1 + j' = i + (j' + 1) by omega] at this
      exact this

/-- Looking up the `j`-th channel name in the association list built from
index `i` onwards finds nothing once `i + j` is beyond the renamed range
(the name, being distinct from the earlier ones, was never recorded). -/
theorem lookup_buildNewChsAux_none :
    ∀ (l : List String) (i j : Nat) (x : String), l.Nodup →
      l[j]? = some x → 257 ≤ i + j →
      (buildNewChsAux i l).lookup x = none := by
  intro l
  induction l with
  | nil => intro i j x _ hx _; simp at hx
  | cons a t ih =>
    intro i j x hnd hx hge
    rcases List.nodup_cons.mp hnd with ⟨ha, ht⟩
    by_cases hi : 256 < i
    · rw [buildNewChsAux, if_pos hi]; rfl
    · rw [buildNewChsAux, if_neg hi]
      cases j with
      | zero => omega
      | succ j' =>
        rw [List.getElem?_cons_succ] at hx
        have hmem : x ∈ t := List.getElem?_mem hx
        have hne : x ≠ a := fun h => ha (h ▸ hmem)
        rw [List.lookup_cons]
        rw [show (x == a) = false from beq_eq_false_iff_ne.mpr hne]
        exact ih (i + 1) j' x ht hx (by omega)

/-- Every table entry used by the rename loop is an element of the table. -/
theorem getD_table_mem (i : Nat) (h : i ≤ 256) :
    CH_NAMES_EGI.getD i "" ∈ CH_NAMES_EGI := by
  have hlen : i < CH_NAMES_EGI.length := by
    have h257 : CH_NAMES_EGI.length = 257 := by rfl
    omega
  rw [List.getD_eq_getElem?_getD, List.getElem?_eq_getElem hlen]
  exact List.getElem_mem hlen

/-- Every value stored in the rename mapping is an element of the table. -/
theorem lookup_buildNewChsAux_mem_table :
    ∀ (l : List String) (i : Nat) (x v : String),
      (buildNewChsAux i l).lookup x = some v → v ∈ CH_NAMES_EGI := by
  intro l
  induction l with
  | nil => intro i x v hv; simp [buildNewChsAux] at hv
  | cons a t ih =>
    intro i x v hv
    by_cases hi : 256 < i
    · rw [buildNewChsAux, if_pos hi] at hv; simp at hv
    · rw [buildNewChsAux, if_neg hi, List.lookup_cons] at hv
      cases hbeq : (x == a) with
      | true =>
        rw [hbeq] at hv
        cases hv
        exact getD_table_mem i (by omega)
      | false =>
        rw [hbeq] at hv
        exact ih (i + 1) x v hv

/-- The rename step never produces a name that is neither an original
channel name nor a table entry; in particular the stimulus-channel
identifier cannot appear after the rename if it was not there before. -/
theorem stim_not_in_renamed (l : List String) (h : stimChannel ∉ l) :
    stimChannel ∉ renamedChNames l := by
  intro hmem
  rw [renamedChNames, renameChannels] at hmem
  rcases List.mem_map.mp hmem with ⟨ch, hch, heq⟩
  cases hcase : (buildNewChs l).lookup ch with
  | none =>
    rw [hcase, Option.getD_none] at heq
    exact h (heq ▸ hch)
  | some v =>
    rw [hcase, Option.getD_some] at heq
    have hv : v ∈ CH_NAMES_EGI :=
      lookup_buildNewChsAux_mem_table l 0 ch v hcase
    have hs : stimChannel ∉ CH_NAMES_EGI := by decide
    exact hs (heq ▸ hv)

/-! ### Claims C1 to C6 -/

/-- Beyond the renamed range (index at least 257), a channel keeps its
name.  The names of a loaded recording are pairwise distinct (an MNE
invariant), hence the `Nodup` hypothesis. -/
theorem renamedChNames_getD_ge (l : List String) (h : l.Nodup)
    (j : Nat) (hj : 257 ≤ j) :
    (renamedChNames l).getD j "" = l.getD j "" := by
  by_cases hlt : j < l.length
  · have hx : l[j]? = some (l.get ⟨j, hlt⟩) := by
      rw [List.getElem?_eq_getElem hlt]; rfl
    have hnone := lookup_buildNewChsAux_none l 0 j _ h hx (by omega)
    rw [renamedChNames, renameChannels, List.getD_eq_getElem?_getD,
      List.getElem?_map, hx, Option.map_some', Option.getD_some]
    rw [buildNewChs, hnone, Option.getD_none]
    rw [List.getD_eq_getElem?_getD, hx, Option.getD_some]
  · have hle : l.length ≤ j := by omega
    have h1 : (renamedChNames l)[j]? = none := by
      apply List.getElem?_eq_none
      simpa [renamedChNames, renameChannels] using hle
    have h2 : l[j]? = none := List.getElem?_eq_none hle
    rw [List.getD_eq_getElem?_getD, h1, List.getD_eq_getElem?_getD, h2]

/-- Within the renamed range (index at most 256), a channel receives the
table entry at its position. -/
theorem renamedChNames_getD_le (l : List String) (h : l.Nodup)
    (j : Nat) (hlt : j < l.length) (hj : j ≤ 256) :
    (renamedChNames l).getD j "" = CH_NAMES_EGI.getD j "" := by
  have hx : l[j]? = some (l.get ⟨j, hlt⟩) := by
    rw [List.getElem?_eq_getElem hlt]; rfl
  have hsome := lookup_buildNewChsAux_le l 0 j _ h hx (by omega)
  rw [renamedChNames, renameChannels, List.getD_eq_getElem?_getD,
    List.getElem?_map, hx, Option.map_some', Option.getD_some]
  rw [buildNewChs, hsome, Option.getD_some]
  rw [Nat.zero_add]

/-- The 258 replicate-based names are pairwise distinct. -/
theorem wNames_nodup : wNames.Nodup := by
  apply List.Nodup.map _ (List.nodup_range 258)
  intro a b hab
  have hd : List.replicate a 'a' = List.replicate b 'a' :=
    congrArg String.data hab
  have hlen := congrArg List.length hd
  simpa using hlen

/-- C1 (amended): the rename loop applies the positional lookup table to
the first 257 channels of the recording, in raw channel order (the loop
breaks only once the zero-based index exceeds 256, and the table has 257
entries, the last being "Cz"); every channel beyond the 257th keeps its
original name unchanged.  The names of a loaded recording are pairwise
distinct (an MNE invariant), hence the `Nodup` hypothesis. -/
theorem C1_rename_scope (l : List String) (h : l.Nodup) :
    (∀ j, 257 ≤ j → (renamedChNames l).getD j "" = l.getD j "") ∧
    (∀ j, j < l.length → j ≤ 256 →
      (renamedChNames l).getD j "" = CH_NAMES_EGI.getD j "") :=
  ⟨fun j hj => renamedChNames_getD_ge l h j hj,
    fun j hlt hj => renamedChNames_getD_le l h j hlt hj⟩

/-- Witness for C1: on 258 pairwise-distinct channel names, channel 258
(index 257) keeps its name, and channel 1 (index 0) receives the first
table entry. -/
theorem C1_rename_scope_witness :
    wNames.Nodup ∧
    (renamedChNames wNames).getD 257 "" = wNames.getD 257 "" ∧
    (renamedChNames wNames).getD 0 "" = CH_NAMES_EGI.getD 0 "" :=
  ⟨wNames_nodup,
    (C1_rename_scope wNames wNames_nodup).1 257 (Nat.le_refl 257),
    (C1_rename_scope wNames wNames_nodup).2 0
      (by simp [wNames]) (Nat.zero_le 256)⟩

/-- Counterexample to C1 as stated: a recording with 257 channels (more
than 256) whose 257th channel (index 256) does not keep its original name
"E257" but is renamed to "Cz", the 257th table entry. -/
theorem C1_counterexample :
    (renamedChNames ((List.range 257).map fun n => "E" ++ toString (n + 1))).getD 256 "" = "Cz" ∧
    ((List.range 257).map fun n => "E" ++ toString (n + 1)).getD 256 "" = "E257" ∧
    ("Cz" : String) ≠ "E257" := by decide

/-- The labels "1" through "256" are pairwise distinct. -/
theorem names256_nodup : names256.Nodup := by decide

/-- C3: applying the channel-rename step to a recording with exactly 256
channels labeled "1" through "256" in order produces channel names equal
to the first 256 entries of the fixed table, in the same positional
order. -/
theorem C3_rename_256 :
    renamedChNames names256 = CH_NAMES_EGI.take 256 := by
  have hlen : names256.length = 256 := by simp [names256]
  have hrlen : (renamedChNames names256).length = 256 := by
    simp [renamedChNames, renameChannels, names256]
  have htlen : CH_NAMES_EGI.length = 257 := by rfl
  apply List.ext_getElem?
  intro n
  by_cases hn : n < 256
  · have h1 : n < (renamedChNames names256).length := by omega
    have h2 : n < CH_NAMES_EGI.length := by omega
    rw [List.getElem?_take_of_lt hn, List.getElem?_eq_getElem h1,
      List.getElem?_eq_getElem h2]
    have hgd := renamedChNames_getD_le names256 names256_nodup n
      (by omega) (by omega)
    rw [List.getD_eq_getElem?_getD, List.getElem?_eq_getElem h1,
      Option.getD_some] at hgd
    rw [List.getD_eq_getElem?_getD, List.getElem?_eq_getElem h2,
      Option.getD_some] at hgd
    rw [hgd]
  · have h1 : (renamedChNames names256).length ≤ n := by omega
    have h2 : (CH_NAMES_EGI.take 256).length ≤ n := by
      rw [List.length_take]
      omega
    rw [List.getElem?_eq_none h1, List.getElem?_eq_none h2]

/-- C2 (code behaviour at the claimed input): for a stimulus channel with
transitions at samples 10 and 20 carrying codes 1 and 2 and no
caller-supplied event-id map, the code produces one entry per distinct
code, but the labels are spelled "Unkown_1" and "Unkown_2"
(`mff2bids.py` line 163), not "Unknown_1" and "Unknown_2" as the spec
states. -/
theorem C2_event_id_spelling :
    buildEventId [(10, 0, 1), (20, 0, 2)] = [("Unkown_1", 1), ("Unkown_2", 2)] ∧
    buildEventId [(10, 0, 1), (20, 0, 2)] ≠ [("Unknown_1", 1), ("Unknown_2", 2)] := by
  decide

/-- `findContents` returns a root that indeed has a "Contents" entry. -/
theorem findContents_mem :
    ∀ (walk : List (String × List String)) (root : String),
      findContents walk = some root →
      ∃ ds, (root, ds) ∈ walk ∧ "Contents" ∈ ds := by
  intro walk
  induction walk with
  | nil => intro root h; simp [findContents] at h
  | cons p rest ih =>
    intro root h
    rcases p with ⟨r, ds⟩
    rw [findContents] at h
    by_cases hc : "Contents" ∈ ds
    · rw [if_pos hc] at h
      cases h
      exact ⟨ds, List.mem_cons_self _ _, hc⟩
    · rw [if_neg hc] at h
      rcases ih root h with ⟨ds2, hmem, hc2⟩
      exact ⟨ds2, List.mem_cons_of_mem _ hmem, hc2⟩

/-- C4: archive resolution returns the input path unchanged for a `.mff`
path; for a `.tar` or `.zip` path it extracts the archive into the working
directory (the `extractArchive` effect) and returns the first walked
directory containing a "Contents" entry. -/
theorem C4_archive_resolution :
    (∀ (path dir : String) (walk : List (String × List String)),
      extractFolder ".mff" path dir walk = ([], Except.ok path)) ∧
    (∀ (ext path dir : String) (walk : List (String × List String))
      (root : String), (ext = ".tar" ∨ ext = ".zip") →
      findContents walk = some root →
      extractFolder ext path dir walk
        = ([Effect.extractArchive path dir], Except.ok root) ∧
      ∃ ds, (root, ds) ∈ walk ∧ "Contents" ∈ ds) := by
  constructor
  · intro path dir walk
    rfl
  · intro ext path dir walk root hext hfind
    refine ⟨?_, findContents_mem walk root hfind⟩
    rcases hext with h | h <;> subst h <;>
      simp [extractFolder, checkExtension, hfind]

/-- Witness for C4 at concrete inputs. -/
theorem C4_archive_resolution_witness :
    extractFolder ".mff" "rec.mff" "wd" [] = ([], Except.ok "rec.mff") ∧
    extractFolder ".tar" "rec.tar" "wd" [("wd/rec", ["Contents"])]
      = ([Effect.extractArchive "rec.tar" "wd"], Except.ok "wd/rec") := by
  refine ⟨C4_archive_resolution.1 "rec.mff" "wd" [], ?_⟩
  exact (C4_archive_resolution.2 ".tar" "rec.tar" "wd" [("wd/rec", ["Contents"])]
    "wd/rec" (Or.inl rfl) (by decide)).1

/-- C5: for every input path whose extension is not `.tar`, `.zip` or
`.mff`, archive resolution raises an exception and performs no extraction
(the effect trace is empty). -/
theorem C5_bad_extension (ext path dir : String)
    (walk : List (String × List String))
    (h : ¬(ext = ".tar" ∨ ext = ".zip" ∨ ext = ".mff")) :
    (extractFolder ext path dir walk).1 = [] ∧
    ∃ e, (extractFolder ext path dir walk).2 = Except.error e := by
  rw [extractFolder, checkExtension, if_neg h]
  exact ⟨rfl, _, rfl⟩

/-- Witness for C5 at a concrete unsupported extension. -/
theorem C5_bad_extension_witness :
    (extractFolder ".txt" "rec.txt" "wd" []).1 = [] ∧
    ∃ e, (extractFolder ".txt" "rec.txt" "wd" []).2 = Except.error e :=
  C5_bad_extension ".txt" "rec.txt" "wd" [] (by decide)

/-- C6 (code behaviour at the failing input): when an extracted archive
contains no directory with a "Contents" entry, `_extract_folder` executes
`raise "<message>"` on a plain string (line 84), which in Python 3 raises
`TypeError('exceptions must derive from BaseException')`; the descriptive
message is discarded and never reaches the caller. -/
theorem C6_missing_contents :
    extractFolder ".tar" "rec.tar" "wd" [("wd", ["other"])]
      = ([Effect.extractArchive "rec.tar" "wd"],
        Except.error (PyError.typeError "exceptions must derive from BaseException")) := by
  rfl

/-! ### Claims C7 to C10 -/

/-- `_extract_folder` writes at most to the working directory. -/
theorem extractFolder_trace (e p d : String)
    (w : List (String × List String)) :
    (extractFolder e p d w).1 = [] ∨
    (extractFolder e p d w).1 = [Effect.extractArchive p d] := by
  rw [extractFolder]
  cases hck : checkExtension e with
  | error er => exact Or.inl rfl
  | ok u =>
    by_cases hz : e = ".tar" ∨ e = ".zip"
    · rw [if_pos hz]
      cases hf : findContents w with
      | some root => exact Or.inr rfl
      | none => exact Or.inr rfl
    · rw [if_neg hz]
      exact Or.inl rfl

/-- `_extract_folder` never writes to the BIDS output tree. -/
theorem extractFolder_no_output (e p d : String)
    (w : List (String × List String)) :
    ∀ eff ∈ (extractFolder e p d w).1, isOutputWrite eff = false := by
  rcases extractFolder_trace e p d w with h | h <;> rw [h] <;> intro eff hm
  · simp at hm
  · rw [List.mem_singleton] at hm
    subst hm
    rfl

/-- On a source-data collision with `overwrite=False`, the body of
`mff2bids` raises before any write to the output tree. -/
theorem mff2bidsBody_collision (a : Args) (env : Env) (wd : String)
    (h1 : a.saveSource = true) (h2 : a.overwrite = false)
    (h3 : env.sourceExists = true) :
    (∃ e, (mff2bidsBody a env wd).2 = Except.error e) ∧
    ∀ eff ∈ (mff2bidsBody a env wd).1, isOutputWrite eff = false := by
  have hno := extractFolder_no_output a.mffExt a.mffPath wd env.walkDirs
  rw [mff2bidsBody]
  split
  · rename_i ef e heq
    rw [heq] at hno
    exact ⟨⟨e, rfl⟩, hno⟩
  · rename_i ef src heq
    rw [heq] at hno
    rw [if_pos ⟨h1, h3, h2⟩]
    exact ⟨⟨_, rfl⟩, hno⟩

/-- C7: calling `mff2bids` with `save_source=True`, `overwrite=False` and
an already-existing destination source-data path raises an error, and no
write to the BIDS output tree occurs on any such call. -/
theorem C7_source_collision (a : Args) (env : Env)
    (h1 : a.saveSource = true) (h2 : a.overwrite = false)
    (h3 : env.sourceExists = true) :
    (∃ e, (mff2bids a env).2 = Except.error e) ∧
    ∀ eff ∈ (mff2bids a env).1, isOutputWrite eff = false := by
  cases hw : a.workingDir with
  | none =>
    have hbody := mff2bidsBody_collision a env "tmpdir.mff" h1 h2 h3
    rcases hb : mff2bidsBody a env "tmpdir.mff" with ⟨ef, r⟩
    rw [hb] at hbody
    rw [mff2bids, hw, hb]
    refine ⟨hbody.1, ?_⟩
    intro eff hm
    simp only [List.mem_cons, List.mem_append, List.mem_singleton] at hm
    rcases hm with (rfl | hm) | rfl | hm0
    · rfl
    · exact hbody.2 eff hm
    · rfl
    · exact absurd hm0 (List.not_mem_nil eff)
  | strPath s =>
    rw [mff2bids, hw]
    exact ⟨⟨_, rfl⟩, by intro eff hm; simp at hm⟩
  | pathObj s =>
    rw [mff2bids, hw]
    exact mff2bidsBody_collision a env s h1 h2 h3

/-- Witness for C7 at concrete arguments. -/
theorem C7_source_collision_witness :
    (∃ e, (mff2bids { argsBase with saveSource := true } envExists).2
      = Except.error e) ∧
    ∀ eff ∈ (mff2bids { argsBase with saveSource := true } envExists).1,
      isOutputWrite eff = false :=
  C7_source_collision { argsBase with saveSource := true } envExists
    rfl rfl rfl

/-- When the stimulus channel is absent (after the rename), the body of
`mff2bids` passes `events_data=None` and `event_id=None` to the writer. -/
theorem mff2bidsBody_no_stim (a : Args) (env : Env) (wd : String)
    (h : stimChannel ∉ env.raw.chNames) :
    ∀ eff ∈ (mff2bidsBody a env wd).1, ∀ ev ei,
      eff = Effect.writeRawBids ev ei → ev = none ∧ ei = none := by
  have hstim : stimChannel ∉ renamedChNames env.raw.chNames :=
    stim_not_in_renamed _ h
  have hpair : eventsPair a env = (none, none) := by
    rw [eventsPair, if_neg hstim]
  have hno := extractFolder_no_output a.mffExt a.mffPath wd env.walkDirs
  have hef : ∀ (l : List Effect), (∀ eff ∈ l, isOutputWrite eff = false) →
      ∀ eff ∈ l, ∀ (ev : Option (List (Int × Int × Int)))
        (ei : Option (List (String × Int))),
      eff = Effect.writeRawBids ev ei → ev = none ∧ ei = none := by
    intro l hl eff hm ev ei heq
    have hfalse := hl eff hm
    rw [heq] at hfalse
    exact absurd hfalse (by simp [isOutputWrite])
  rw [mff2bidsBody]
  split
  · rename_i ef e heq
    rw [heq] at hno
    exact hef ef hno
  · rename_i ef src heq
    rw [heq] at hno
    split
    · exact hef ef hno
    · intro eff hm ev ei heq2
      subst heq2
      rcases List.mem_append.mp hm with hm | hm
      · exact hef ef hno _ hm ev ei rfl
      · cases hs : a.saveSource <;>
          simp [writeEffects, hpair, hs] at hm <;>
          exact ⟨hm.1, hm.2⟩

/-- C8: for every recording whose channel names do not include the fixed
stimulus-channel identifier "STI 014", the writer is only ever invoked
with no events and no event-id mapping. -/
theorem C8_no_stim (a : Args) (env : Env)
    (h : stimChannel ∉ env.raw.chNames) :
    ∀ eff ∈ (mff2bids a env).1, ∀ ev ei,
      eff = Effect.writeRawBids ev ei → ev = none ∧ ei = none := by
  cases hw : a.workingDir with
  | none =>
    have hbody := mff2bidsBody_no_stim a env "tmpdir.mff" h
    rcases hb : mff2bidsBody a env "tmpdir.mff" with ⟨ef, r⟩
    rw [hb] at hbody
    rw [mff2bids, hw, hb]
    intro eff hm ev ei heq
    simp only [List.mem_cons, List.mem_append, List.mem_singleton] at hm
    rcases hm with (rfl | hm) | rfl | hm0
    · exact absurd heq (by simp)
    · exact hbody eff hm ev ei heq
    · exact absurd heq (by simp)
    · exact absurd hm0 (List.not_mem_nil eff)
  | strPath s =>
    rw [mff2bids, hw]
    intro eff hm
    simp at hm
  | pathObj s =>
    rw [mff2bids, hw]
    exact mff2bidsBody_no_stim a env s h

/-- Witness for C8: a concrete stimulus-free recording; the run reaches
the writer, which is invoked with no events and no mapping. -/
theorem C8_no_stim_witness :
    stimChannel ∉ envA.raw.chNames ∧
    (∀ eff ∈ (mff2bids argsBase envA).1, ∀ ev ei,
      eff = Effect.writeRawBids ev ei → ev = none ∧ ei = none) ∧
    Effect.writeRawBids none none ∈ (mff2bids argsBase envA).1 :=
  ⟨by decide, C8_no_stim argsBase envA (by decide), by decide⟩

/-- C9: when the caller supplies no working directory, `mff2bids` creates
a scoped temporary directory and its removal appears in the trace of every
run, whether the call returns normally or raises. -/
theorem C9_tmpdir (a : Args) (env : Env)
    (h : a.workingDir = WorkingDirArg.none) :
    Effect.tmpdirCreate ∈ (mff2bids a env).1 ∧
    Effect.tmpdirRemove ∈ (mff2bids a env).1 := by
  rcases hb : mff2bidsBody a env "tmpdir.mff" with ⟨ef, r⟩
  rw [mff2bids, h, hb]
  exact ⟨List.mem_cons_self _ _, by simp⟩

/-- Witness for C9: one normally-returning run and one raising run (bad
extension); the temporary directory is created and removed in both. -/
theorem C9_tmpdir_witness :
    ((mff2bids argsBase envA).2 = Except.ok "bids_root" ∧
      Effect.tmpdirCreate ∈ (mff2bids argsBase envA).1 ∧
      Effect.tmpdirRemove ∈ (mff2bids argsBase envA).1) ∧
    ((∃ e, (mff2bids { argsBase with mffExt := ".txt" } envA).2
        = Except.error e) ∧
      Effect.tmpdirCreate ∈ (mff2bids { argsBase with mffExt := ".txt" } envA).1 ∧
      Effect.tmpdirRemove ∈ (mff2bids { argsBase with mffExt := ".txt" } envA).1) :=
  ⟨⟨by rfl, C9_tmpdir argsBase envA rfl⟩,
    ⟨⟨PyError.valueError "Invalid value for the parameter extension.", by rfl⟩,
      C9_tmpdir { argsBase with mffExt := ".txt" } envA rfl⟩⟩

/-- C10 (amended): for a caller-supplied working directory given as a
plain string, `mff2bids` fails before any extraction or conversion (the
effect trace is empty), because the supplied value is entered as a context
manager and `str` does not support the protocol.  A `pathlib.Path`,
however, implements the context-manager protocol (returning itself) on the
Python versions contemporaneous with this code (below 3.13), so a `Path`
working directory is accepted and the run proceeds. -/
theorem C10_str_working_dir (a : Args) (env : Env) (s : String)
    (h : a.workingDir = WorkingDirArg.strPath s) :
    (mff2bids a env).1 = [] ∧
    ∃ e, (mff2bids a env).2 = Except.error e := by
  rw [mff2bids, h]
  exact ⟨rfl, _, rfl⟩

/-- Witness for C10 at a concrete string working directory. -/
theorem C10_str_working_dir_witness :
    (mff2bids { argsBase with workingDir := .strPath "wd" } envA).1 = [] ∧
    ∃ e, (mff2bids { argsBase with workingDir := .strPath "wd" } envA).2
      = Except.error e :=
  C10_str_working_dir { argsBase with workingDir := .strPath "wd" } envA
    "wd" rfl

/-- Counterexample to C10 as stated: with a caller-supplied `pathlib.Path`
working directory and an otherwise well-formed call, `mff2bids` does not
fail before extraction or conversion — it runs to completion (the
recording is loaded and the output written). -/
theorem C10_counterexample :
    (mff2bids { argsBase with workingDir := .pathObj "wd" } envA).2
      = Except.ok "bids_root" ∧
    Effect.readRaw ∈ (mff2bids { argsBase with workingDir := .pathObj "wd" } envA).1 :=
  ⟨by rfl, by decide⟩

end Egi2Bids
